import Mathlib

/-!
# blockchainstore: a shallow embedding of the block store

The Go package `blockchainstore` (files `block.go`, `store.go`, `sql.go`) is
translated function by function.  Go values are modelled as follows.

* `string` is `String`, `error` is `Option String` (`none` is `nil`),
  `*Block` is `Option Block` where the source tests for `nil`.
* `map[string]string` is a duplicate-free association list (`GoMap`).
* Pointer receivers that mutate become functions returning the new value.
* The datasets assembled with the `goqu` builder are plain data (`Dataset`);
  what the builder, the execution backend and the clock do is supplied by a
  record of collaborators (`Collab`), so that statements about the store hold
  for every behaviour of those libraries.  `tableCollab` is one concrete
  backend: a table of rows keyed by column name.
-/

namespace Blockchainstore

/-! ## Go maps -/

/-- A Go `map[string]string`: keys are unique, iteration order is the list order. -/
abbrev GoMap := AList (fun _ : String => String)

/-- Equality of maps is decided on their entries. -/
instance GoMap.instDecEq : DecidableEq GoMap := fun a b =>
  decidable_of_iff (a.entries = b.entries) AList.ext_iff.symm

namespace GoMap

/-- Go `m[k]`: the stored value, or the zero value `""` when the key is absent. -/
def get (m : GoMap) (k : String) : String := (m.lookup k).getD ""

/-- Go `m[k] = v`. -/
def set (m : GoMap) (k v : String) : GoMap := m.insert k v

/-- Go `delete(m, k)`. -/
def delete (m : GoMap) (k : String) : GoMap := m.erase k

/-- Go `len(m)`. -/
def len (m : GoMap) : Nat := m.entries.length

/-- Build a map from key/value pairs, later pairs overriding earlier ones. -/
def ofList (l : List (String × String)) : GoMap :=
  l.foldl (fun m kv => m.insert kv.1 kv.2) ∅

end GoMap

/-! ## The data object embedded in `Block` -/

/-- Modelled from the spec: the attribute bag `dataobject.DataObject` that
`Block` embeds is a library type outside this package.  It holds the current
field values (`data`) and the changed-field map (`dataChanged`); every setter
writes both, hydration writes only `data`, and `DataChanged` hands out the
object's own changed-field map, so a Go `delete` on the returned map acts on
the object. -/
structure DataObject where
  data : GoMap
  dataChanged : GoMap
deriving DecidableEq

namespace DataObject

/-- The zero value `DataObject{}` after `Init`: both maps empty. -/
def zero : DataObject := { data := ∅, dataChanged := ∅ }

/-- `Get(key)`: the field value, `""` when unset. -/
def Get (o : DataObject) (key : String) : String := o.data.get key

/-- `Set(key, value)`: stores the value and marks the field as changed. -/
def Set (o : DataObject) (key value : String) : DataObject :=
  { data := o.data.set key value, dataChanged := o.dataChanged.set key value }

/-- `ID()`. -/
def ID (o : DataObject) : String := o.Get "id"

/-- `SetID(id)`. -/
def SetID (o : DataObject) (id : String) : DataObject := o.Set "id" id

/-- `Data()`: the complete field mapping. -/
def Data (o : DataObject) : GoMap := o.data

/-- `DataChanged()`: the changed-field map. -/
def DataChanged (o : DataObject) : GoMap := o.dataChanged

/-- `MarkAsNotDirty()`: replaces the changed-field map by an empty one. -/
def MarkAsNotDirty (o : DataObject) : DataObject := { o with dataChanged := ∅ }

/-- `IsDirty()`. -/
def IsDirty (o : DataObject) : Bool := decide (0 < o.dataChanged.len)

/-- `Hydrate(data)`: copies every entry of `data` into the field values.  The
changed-field map is not written; on the fresh object that
`NewBlockFromExistingData` hydrates it is empty, so no field is dirty after
hydration. -/
def Hydrate (o : DataObject) (data : GoMap) : DataObject :=
  { o with data := data.foldl (fun d k v => d.set k v) o.data }

end DataObject

/-! ## block.go -/

/-- `type Block struct { dataobject.DataObject }`. -/
structure Block extends DataObject
deriving DecidableEq

namespace Block

/-- Lifts a setter of the embedded object to the block. -/
def Set (o : Block) (key value : String) : Block := ⟨o.toDataObject.Set key value⟩

/-- Promoted method `Get`. -/
def Get (o : Block) (key : String) : String := o.toDataObject.Get key

/-- Promoted method `ID`. -/
def ID (o : Block) : String := o.toDataObject.ID

/-- Promoted method `SetID`. -/
def SetID (o : Block) (id : String) : Block := ⟨o.toDataObject.SetID id⟩

/-- Promoted method `DataChanged`. -/
def DataChanged (o : Block) : GoMap := o.toDataObject.DataChanged

/-- Promoted method `MarkAsNotDirty`. -/
def MarkAsNotDirty (o : Block) : Block := ⟨o.toDataObject.MarkAsNotDirty⟩

/-- Promoted method `Hydrate`. -/
def Hydrate (o : Block) (data : GoMap) : Block := ⟨o.toDataObject.Hydrate data⟩

/-- `func (o *Block) Timestamp() string`. -/
def Timestamp (o : Block) : String := o.Get "timestamp"

/-- `func (o *Block) SetTimestamp(timestamp string) *Block`. -/
def SetTimestamp (o : Block) (timestamp : String) : Block := o.Set "timestamp" timestamp

/-- `func (o *Block) PreviousHash() string`. -/
def PreviousHash (o : Block) : String := o.Get "previous_hash"

/-- `func (o *Block) SetPreviousHash(previousHash string) *Block`. -/
def SetPreviousHash (o : Block) (previousHash : String) : Block :=
  o.Set "previous_hash" previousHash

/-- `func (o *Block) ThisHash() string`. -/
def ThisHash (o : Block) : String := o.Get "this_hash"

/-- `func (o *Block) SetThisHash(thisHash string) *Block`. -/
def SetThisHash (o : Block) (thisHash : String) : Block := o.Set "this_hash" thisHash

/-- `func (o *Block) Data() string`: the payload.  Declared on `Block`, it
hides the promoted `DataObject.Data` (the field mapping) for every
`block.Data()` call. -/
def Data (o : Block) : String := o.Get "data"

/-- `func (o *Block) SetData(data string) *Block`. -/
def SetData (o : Block) (data : String) : Block := o.Set "data" data

end Block

/-- `func NewBlock() *Block`; `uid` stands for `uid.HumanUid()` and `now` for
`carbon.Now(carbon.UTC).ToDateTimeString(carbon.UTC)`. -/
def NewBlock (uid now : String) : Block :=
  let block : Block := ⟨DataObject.zero⟩
  let block := block.SetID uid
  let block := block.SetTimestamp now
  let block := block.Set "previous_hash" ""
  let block := block.Set "this_hash" ""
  let block := block.Set "data" ""
  block

/-- `func NewBlockFromExistingData(data map[string]string) *Block`. -/
def NewBlockFromExistingData (data : GoMap) : Block :=
  let block : Block := ⟨DataObject.zero⟩
  block.Hydrate data

/-! ## Values of the libraries the store calls -/

/-- Go `error`; `none` is `nil`. -/
abbrev GoError := Option String

/-- Go `uint(x)` for an `int` on a 64-bit platform. -/
def uint (x : Int) : Nat := (x % 2 ^ 64).toNat

/-- A value passed where the builder accepts `interface{}`: the store passes
either a string or a `map[string]string`. -/
inductive GoAny where
  | str (s : String)
  | mapStringString (m : GoMap)
deriving DecidableEq

/-- Direction of an order clause: `.Asc()` or `.Desc()`. -/
inductive Direction where
  | asc
  | desc
deriving DecidableEq

/-- The condition `goqu.C(column).Eq(value)`. -/
structure Cond where
  column : String
  value : String
deriving DecidableEq

/-- A `*goqu.SelectDataset`: dialect, source table and the clauses added so far. -/
structure SelectDataset where
  dialect : String
  table : String
  wheres : List Cond
  limit : Option Nat
  offset : Option Nat
  order : Option (String × Direction)
  prepared : Bool
deriving DecidableEq

namespace SelectDataset

/-- `goqu.Dialect(d).From(t)`. -/
def From (dialect table : String) : SelectDataset :=
  { dialect := dialect, table := table, wheres := [], limit := none, offset := none,
    order := none, prepared := false }

/-- `q.Where(goqu.C(column).Eq(value))`: conditions accumulate and are conjoined. -/
def Where (q : SelectDataset) (column value : String) : SelectDataset :=
  { q with wheres := q.wheres ++ [⟨column, value⟩] }

/-- `q.Limit(n)`. -/
def Limit (q : SelectDataset) (n : Nat) : SelectDataset := { q with limit := some n }

/-- `q.Offset(n)`. -/
def Offset (q : SelectDataset) (n : Nat) : SelectDataset := { q with offset := some n }

/-- `q.Order(goqu.I(column).Asc())` or `.Desc()`. -/
def Order (q : SelectDataset) (column : String) (d : Direction) : SelectDataset :=
  { q with order := some (column, d) }

/-- `q.Select()` without arguments: all columns, the dataset is unchanged. -/
def Select (q : SelectDataset) : SelectDataset := q

/-- `q.Prepared(p)`. -/
def Prepared (q : SelectDataset) (p : Bool) : SelectDataset := { q with prepared := p }

end SelectDataset

/-- The datasets on which the store calls `ToSQL`.  A rendered statement (SQL
text with bound parameters) is identified with the dataset it renders. -/
inductive Dataset where
  | insert (dialect table : String) (prepared : Bool) (rows : GoAny)
  | delete (dialect table : String) (prepared : Bool) (wheres : List Cond)
  | update (dialect table : String) (prepared : Bool) (set : GoMap) (wheres : List Cond)
  | select (q : SelectDataset)
deriving DecidableEq

/-- The stored table: its rows, each keyed by column name. -/
abbrev Table := List GoMap

/-- The libraries the store relies on: the clock, the statement renderer
(`ToSQL`, which may fail), `database.Execute` and `database.SelectToMapString`. -/
structure Collab where
  now : String
  toSQL : Dataset → GoError
  execute : Dataset → Table → Table × GoError
  selectToMapString : Dataset → Table → Except String (List GoMap)

/-- What an operation can observe and change outside the store: the stored
table, the datasets rendered with `ToSQL`, the statements handed to the
execution backend, and the debug log. -/
structure World where
  table : Table
  rendered : List Dataset
  executed : List Dataset
  logged : List (String × Dataset)
deriving DecidableEq

namespace sb

/-- Constant `sb.ASC` of the helper package `github.com/gouniverse/sb`. -/
def ASC : String := "asc"

/-- Constant `sb.NULL_DATETIME` of the helper package `github.com/gouniverse/sb`:
the datetime that package stores in place of a missing one. -/
def NULL_DATETIME : String := "0002-01-01 00:00:00"

end sb

/-- Representative of a rune's orbit under Unicode simple case folding, for the
orbits that contain an ASCII rune: `A`..`Z` fold to `a`..`z`, the long s
(U+017F) folds to `s` and the Kelvin sign (U+212A) to `k`. -/
def foldRune (c : Char) : Char :=
  if c = '\u017f' then 's'
  else if c = '\u212a' then 'k'
  else c.toLower

/-- Go `strings.EqualFold(s, t)`: rune by rune, two runes agree when they lie in
the same simple-folding orbit.  The orbit table covers the orbits meeting
ASCII, so the result is exact whenever one argument is ASCII; the store only
compares with `sb.ASC`. -/
def EqualFold (s t : String) : Bool :=
  s.data.map foldRune == t.data.map foldRune

/-! ## store.go -/

/-- `const BLOCK_TABLE_NAME`. -/
def BLOCK_TABLE_NAME : String := "blocks_block"

/-- `type Store struct`; the connection `db` is the table of the `World`, and
`sqlLogger` records whether a logger is attached. -/
structure Store where
  blockTableName : String
  dbDriverName : String
  timeoutSeconds : Int
  automigrateEnabled : Bool
  debugEnabled : Bool
  sqlLogger : Bool
deriving DecidableEq

/-- `type BlockQueryOptions struct`. -/
structure BlockQueryOptions where
  ID : String := ""
  IDIn : List String := []
  Offset : Int := 0
  Limit : Int := 0
  SortOrder : String := ""
  OrderBy : String := ""
  CountOnly : Bool := false
  WithDeleted : Bool := false
deriving DecidableEq

namespace World

/-- Records a call of `ToSQL` on a dataset. -/
def render (w : World) (ds : Dataset) : World := { w with rendered := w.rendered ++ [ds] }

/-- Records a statement handed to the execution backend, with the table it leaves. -/
def ran (w : World) (ds : Dataset) (table : Table) : World :=
  { w with table := table, executed := w.executed ++ [ds] }

end World

namespace Store

/-- `func (store *Store) logSql(...)`: logs only in debug mode with a logger attached. -/
def logSql (store : Store) (w : World) (sqlOperationType : String) (sql : Dataset) : World :=
  if !store.debugEnabled then w
  else if store.sqlLogger then { w with logged := w.logged ++ [(sqlOperationType, sql)] }
  else w

/-- `func (store *Store) blockQuery(options BlockQueryOptions) *goqu.SelectDataset`. -/
def blockQuery (store : Store) (options : BlockQueryOptions) : SelectDataset :=
  let q := SelectDataset.From store.dbDriverName store.blockTableName
  let q := if options.ID ≠ "" then q.Where "id" options.ID else q
  let q :=
    if !options.CountOnly then
      let q := if options.Limit > 0 then q.Limit (uint options.Limit) else q
      let q := if options.Offset > 0 then q.Offset (uint options.Offset) else q
      q
    else q
  let sortOrder := "desc"
  let sortOrder := if options.SortOrder ≠ "" then options.SortOrder else sortOrder
  let q :=
    if options.OrderBy ≠ "" then
      if EqualFold sortOrder sb.ASC then q.Order options.OrderBy Direction.asc
      else q.Order options.OrderBy Direction.desc
    else q
  let q := if !options.WithDeleted then q.Where "deleted_at" sb.NULL_DATETIME else q
  q

/-- `func (store *Store) BlockCreate(ctx, block *Block) error`, for a non-nil
block; returns the world, the block as the call leaves it, and the error. -/
def BlockCreate (c : Collab) (store : Store) (w : World) (block : Block) :
    World × Block × GoError :=
  let block := block.SetTimestamp c.now
  let data := block.Data
  let ds := Dataset.insert store.dbDriverName store.blockTableName true (GoAny.str data)
  let w := w.render ds
  match c.toSQL ds with
  | some errSql => (w, block, some errSql)
  | none =>
    let w := store.logSql w "insert" ds
    let r := c.execute ds w.table
    let w := w.ran ds r.1
    match r.2 with
    | some err => (w, block, some err)
    | none => (w, block.MarkAsNotDirty, none)

/-- `func (store *Store) BlockDeleteByID(ctx, id string) error`. -/
def BlockDeleteByID (c : Collab) (store : Store) (w : World) (id : String) :
    World × GoError :=
  if id = "" then (w, some "block id is empty")
  else
    let ds := Dataset.delete store.dbDriverName store.blockTableName true [⟨"id", id⟩]
    let w := w.render ds
    match c.toSQL ds with
    | some errSql => (w, some errSql)
    | none =>
      let w := store.logSql w "delete" ds
      let r := c.execute ds w.table
      (w.ran ds r.1, r.2)

/-- `func (store *Store) BlockDelete(ctx, block *Block) error`. -/
def BlockDelete (c : Collab) (store : Store) (w : World) (block : Option Block) :
    World × GoError :=
  match block with
  | none => (w, some "block is nil")
  | some block => store.BlockDeleteByID c w block.ID

/-- `func (store *Store) BlockList(ctx, options) ([]Block, error)`. -/
def BlockList (c : Collab) (store : Store) (w : World) (options : BlockQueryOptions) :
    World × List Block × GoError :=
  let q := store.blockQuery options
  let ds := Dataset.select (q.Select.Prepared true)
  let w := w.render ds
  match c.toSQL ds with
  | some _ => (w, [], none)
  | none =>
    let w := store.logSql w "select" ds
    match c.selectToMapString ds w.table with
    | .error err => (w.ran ds w.table, [], some err)
    | .ok modelMaps =>
      let list := modelMaps.foldl (fun list modelMap =>
        list ++ [NewBlockFromExistingData modelMap]) []
      (w.ran ds w.table, list, none)

/-- `func (store *Store) BlockFindByID(ctx, id string) (*Block, error)`. -/
def BlockFindByID (c : Collab) (store : Store) (w : World) (id : String) :
    World × Option Block × GoError :=
  if id = "" then (w, none, some "exam id is empty")
  else
    match store.BlockList c w { ID := id, Limit := 1 } with
    | (w, _, some err) => (w, none, some err)
    | (w, list, none) =>
      if list.length > 0 then (w, list.head?, none)
      else (w, none, none)

/-- `func (store *Store) BlockUpdate(ctx, block *Block) error`; returns the
world, the block as the call leaves it, and the error.  The three `delete`
calls act on the map returned by `DataChanged`, which is the block's own. -/
def BlockUpdate (c : Collab) (store : Store) (w : World) (block : Option Block) :
    World × Option Block × GoError :=
  match block with
  | none => (w, none, some "order is nil")
  | some block =>
    let dataChanged := block.DataChanged
    let dataChanged := dataChanged.delete "id"
    let dataChanged := dataChanged.delete "hash"
    let dataChanged := dataChanged.delete "data"
    let block : Block := ⟨{ block.toDataObject with dataChanged := dataChanged }⟩
    if dataChanged.len < 1 then (w, some block, none)
    else
      let ds := Dataset.update store.dbDriverName store.blockTableName true dataChanged
        [⟨"id", block.ID⟩]
      let w := w.render ds
      match c.toSQL ds with
      | some errSql => (w, some block, some errSql)
      | none =>
        let w := store.logSql w "update" ds
        let r := c.execute ds w.table
        let w := w.ran ds r.1
        let block := block.MarkAsNotDirty
        (w, some block, r.2)

end Store

/-! ## sql.go -/

namespace sb

/-- Column types used by the table definition (`sb.COLUMN_TYPE_*`). -/
inductive ColumnType where
  | string
  | longtext
  | datetime
deriving DecidableEq

/-- `sb.Column`, with the fields the table definition sets. -/
structure Column where
  Name : String
  Type_ : ColumnType
  Length : Nat := 0
  PrimaryKey : Bool := false
deriving DecidableEq

/-- What `sb.NewBuilder(driver).Table(name).Column(..)...CreateIfNotExists()`
describes: a create-if-absent statement for a table with the given columns. -/
structure CreateTable where
  driver : String
  table : String
  columns : List Column
  ifNotExists : Bool
deriving DecidableEq

end sb

/-- `func (st *Store) sqlCreateTable() string`, as the table definition it renders. -/
def Store.sqlCreateTable (st : Store) : sb.CreateTable :=
  { driver := st.dbDriverName
    table := st.blockTableName
    columns := [
      { Name := "id", Type_ := .string, Length := 40, PrimaryKey := true },
      { Name := "parent_id", Type_ := .string, Length := 40 },
      { Name := "data", Type_ := .longtext },
      { Name := "hash", Type_ := .string, Length := 200 },
      { Name := "created_at", Type_ := .datetime },
      { Name := "updated_at", Type_ := .datetime },
      { Name := "deleted_at", Type_ := .datetime } ]
    ifNotExists := true }

/-! ## A backend: one table of rows keyed by column name -/

/-- Whether a row satisfies `column = value`; a row without the column (SQL
`NULL`) satisfies no equality. -/
def Cond.holds (r : GoMap) (c : Cond) : Bool := r.lookup c.column == some c.value

/-- Whether a row satisfies every condition of a where clause. -/
def rowMatches (wheres : List Cond) (r : GoMap) : Bool := wheres.all (Cond.holds r)

/-- Evaluates a select: filter by the conditions, order, skip `offset` rows,
keep at most `limit` rows. -/
def runSelect (q : SelectDataset) (table : Table) : List GoMap :=
  let rows := table.filter (rowMatches q.wheres)
  let rows :=
    match q.order with
    | none => rows
    | some (col, Direction.asc) => rows.insertionSort (fun a b => a.get col ≤ b.get col)
    | some (col, Direction.desc) => rows.insertionSort (fun a b => b.get col ≤ a.get col)
  let rows := match q.offset with
    | none => rows
    | some n => rows.drop n
  match q.limit with
  | none => rows
  | some n => rows.take n

/-- Executes a write on the table.  An insert or update naming a column the
table does not have fails, as does an insert repeating a stored `id`. -/
def runExecute (columns : List String) (ds : Dataset) (table : Table) : Table × GoError :=
  match ds with
  | .insert _ _ _ (.mapStringString m) =>
    if m.keys.any (fun k => !columns.contains k) then (table, some "no such column")
    else if table.any (fun r => r.lookup "id" == m.lookup "id") then
      (table, some "UNIQUE constraint failed")
    else (table ++ [m], none)
  | .insert _ _ _ (.str _) => (table, some "unsupported insert")
  | .delete _ _ _ wheres => (table.filter (fun r => !rowMatches wheres r), none)
  | .update _ _ _ set wheres =>
    if set.keys.any (fun k => !columns.contains k) then (table, some "no such column")
    else (table.map (fun r => if rowMatches wheres r then set ∪ r else r), none)
  | .select _ => (table, some "not a write")

/-- The renderer of the query builder: an insert needs a record (a map or a
struct) as its row and is refused for any other value. -/
def renderError (ds : Dataset) : GoError :=
  match ds with
  | .insert _ _ _ (.str _) =>
    some "goqu: unsupported insert must be map, goqu.Record, or struct type got: string"
  | _ => none

/-- The collaborators with a table as backend whose columns are those of
`sqlCreateTable`. -/
def tableCollab (now : String) (store : Store) : Collab :=
  { now := now
    toSQL := renderError
    execute := runExecute (store.sqlCreateTable.columns.map (fun c => c.Name))
    selectToMapString := fun ds table =>
      match ds with
      | .select q => .ok (runSelect q table)
      | _ => .error "not a query" }

/-- A store on the table `BLOCK_TABLE_NAME` with the `sqlite` dialect, debug off. -/
def sampleStore : Store :=
  { blockTableName := BLOCK_TABLE_NAME
    dbDriverName := "sqlite"
    timeoutSeconds := 2 * 60 * 60
    automigrateEnabled := false
    debugEnabled := false
    sqlLogger := false }

/-- A world with the given table and nothing rendered, executed or logged yet. -/
def World.start (table : Table) : World :=
  { table := table, rendered := [], executed := [], logged := [] }

/-- The changed-field map `BlockUpdate` is left with after its three `delete` calls. -/
def updateFields (block : Block) : GoMap :=
  ((block.DataChanged.delete "id").delete "hash").delete "data"

/-! ## Lemmas on maps and blocks -/

theorem GoMap.len_lt_one_iff (m : GoMap) : m.len < 1 ↔ m = ∅ := by
  constructor
  · intro h
    apply AList.ext
    have h0 : m.entries.length = 0 := by
      have : m.len = m.entries.length := rfl
      omega
    simpa using List.length_eq_zero.mp h0
  · intro h
    subst h
    decide

theorem GoMap.lookup_set_self (m : GoMap) (k v : String) : (m.set k v).lookup k = some v := by
  simp [GoMap.set]

theorem GoMap.lookup_set_ne (m : GoMap) {k k' : String} (v : String) (h : k ≠ k') :
    (m.set k' v).lookup k = m.lookup k := by
  simp [GoMap.set, AList.lookup_insert_ne h]

theorem GoMap.lookup_delete_self (m : GoMap) (k : String) : (m.delete k).lookup k = none := by
  simp [GoMap.delete]

theorem GoMap.lookup_delete_ne (m : GoMap) {k k' : String} (h : k ≠ k') :
    (m.delete k').lookup k = m.lookup k := by
  simp [GoMap.delete, AList.lookup_erase_ne h]

theorem GoMap.ne_empty_of_lookup {m : GoMap} {k v : String} (h : m.lookup k = some v) :
    m ≠ ∅ := by
  intro he
  subst he
  simp at h

theorem updateFields_lookup (block : Block) {k : String}
    (h1 : k ≠ "id") (h2 : k ≠ "hash") (h3 : k ≠ "data") :
    (updateFields block).lookup k = block.dataChanged.lookup k := by
  simp [updateFields, Block.DataChanged, DataObject.DataChanged, GoMap.lookup_delete_ne, h1, h2, h3]

theorem updateFields_stripped (block : Block) :
    (updateFields block).lookup "id" = none ∧ (updateFields block).lookup "hash" = none ∧
      (updateFields block).lookup "data" = none := by
  refine ⟨?_, ?_, ?_⟩
  · rw [updateFields, GoMap.lookup_delete_ne _ (by decide), GoMap.lookup_delete_ne _ (by decide)]
    exact GoMap.lookup_delete_self _ _
  · rw [updateFields, GoMap.lookup_delete_ne _ (by decide)]
    exact GoMap.lookup_delete_self _ _
  · exact GoMap.lookup_delete_self _ _

@[simp] theorem Store.logSql_rendered (store : Store) (w : World) (op : String) (ds : Dataset) :
    (store.logSql w op ds).rendered = w.rendered := by
  unfold Store.logSql
  split
  · rfl
  · split <;> rfl

@[simp] theorem Store.logSql_executed (store : Store) (w : World) (op : String) (ds : Dataset) :
    (store.logSql w op ds).executed = w.executed := by
  unfold Store.logSql
  split
  · rfl
  · split <;> rfl

@[simp] theorem Store.logSql_table (store : Store) (w : World) (op : String) (ds : Dataset) :
    (store.logSql w op ds).table = w.table := by
  unfold Store.logSql
  split
  · rfl
  · split <;> rfl

/-- When nothing is left after the three deletes, `BlockUpdate` returns at
once: the world is untouched and the block keeps the emptied map. -/
theorem BlockUpdate_of_empty (c : Collab) (store : Store) (w : World) (block : Block)
    (h : updateFields block = ∅) :
    store.BlockUpdate c w (some block) =
      (w, some ⟨{ block.toDataObject with dataChanged := ∅ }⟩, none) := by
  have hlen : (updateFields block).len < 1 := (GoMap.len_lt_one_iff _).mpr h
  simp only [updateFields] at h hlen
  simp only [Store.BlockUpdate]
  rw [if_pos hlen, h]

/-- When something is left after the three deletes, `BlockUpdate` renders one
update dataset on exactly those fields, filtered by the block's id. -/
theorem BlockUpdate_rendered_of_ne (c : Collab) (store : Store) (w : World) (block : Block)
    (h : updateFields block ≠ ∅) :
    (store.BlockUpdate c w (some block)).1.rendered = w.rendered ++
      [Dataset.update store.dbDriverName store.blockTableName true (updateFields block)
        [⟨"id", block.ID⟩]] := by
  have hlen : ¬ (updateFields block).len < 1 := fun hl => h ((GoMap.len_lt_one_iff _).mp hl)
  simp only [updateFields] at hlen
  simp only [Store.BlockUpdate]
  rw [if_neg hlen]
  split
  · rfl
  · simp only [World.ran, Store.logSql_rendered]
    rfl

theorem GoMap.get_set_ne (m : GoMap) {k k' : String} (v : String) (h : k ≠ k') :
    (m.set k' v).get k = m.get k := by
  simp [GoMap.get, GoMap.lookup_set_ne m v h]

theorem GoMap.get_set_self (m : GoMap) (k v : String) : (m.set k v).get k = v := by
  simp [GoMap.get, GoMap.lookup_set_self]

theorem Block.Get_Set_ne (o : Block) {k k' : String} (v : String) (h : k ≠ k') :
    (o.Set k' v).Get k = o.Get k := by
  simp [Block.Get, Block.Set, DataObject.Get, DataObject.Set, GoMap.get_set_ne _ v h]

theorem Block.Get_Set_self (o : Block) (k v : String) : (o.Set k v).Get k = v := by
  simp [Block.Get, Block.Set, DataObject.Get, DataObject.Set, GoMap.get_set_self]

theorem updateFields_hydrated (m : GoMap) : updateFields (NewBlockFromExistingData m) = ∅ := rfl

theorem lookup_foldl_set (l : List (Sigma (fun _ : String => String))) (hl : l.NodupKeys)
    (acc : GoMap) (k : String) :
    (l.foldl (fun d e => GoMap.set d e.1 e.2) acc).lookup k =
      (match l.dlookup k with
       | some v => some v
       | none => acc.lookup k) := by
  induction l generalizing acc with
  | nil => rfl
  | cons e t ih =>
    obtain ⟨a, b⟩ := e
    have hnd := List.nodupKeys_cons.mp hl
    rw [List.foldl_cons, ih hnd.2]
    by_cases hk : k = a
    · subst hk
      have hnone : t.dlookup k = none := List.dlookup_eq_none.mpr hnd.1
      simp [hnone, GoMap.lookup_set_self]
    · have hne : a ≠ k := fun h => hk h.symm
      rw [List.dlookup_cons_ne _ _ hk, GoMap.lookup_set_ne _ _ hk]

/-- A hydrated block holds exactly the entries of the mapping it was hydrated from. -/
theorem NewBlockFromExistingData_lookup (m : GoMap) (k : String) :
    (NewBlockFromExistingData m).data.lookup k = m.lookup k := by
  have h := lookup_foldl_set m.entries m.nodupKeys ∅ k
  simp only [AList.lookup_empty] at h
  have hm : m.lookup k = m.entries.dlookup k := rfl
  have hd : (NewBlockFromExistingData m).data =
      m.entries.foldl (fun d e => GoMap.set d e.1 e.2) ∅ := rfl
  rw [hd, h, hm]
  cases m.entries.dlookup k <;> rfl

theorem NewBlockFromExistingData_Get (m : GoMap) (k : String) :
    (NewBlockFromExistingData m).Get k = m.get k := by
  simp [Block.Get, DataObject.Get, GoMap.get, NewBlockFromExistingData_lookup]

/-! ## BlockUpdate: which fields are sent -/

/-- C1 (defect in the code): after `SetThisHash`, whatever the block was
before, `BlockUpdate` renders an update dataset, and the field map it sends
still holds `this_hash` with the new value: the key removed is `hash`, not
`this_hash`. -/
theorem BlockUpdate_sends_this_hash (c : Collab) (store : Store) (w : World) (block : Block)
    (thisHash : String) :
    (updateFields (block.SetThisHash thisHash)).lookup "this_hash" = some thisHash ∧
    (store.BlockUpdate c w (some (block.SetThisHash thisHash))).1.rendered = w.rendered ++
      [Dataset.update store.dbDriverName store.blockTableName true
        (updateFields (block.SetThisHash thisHash))
        [⟨"id", (block.SetThisHash thisHash).ID⟩]] := by
  have hl : (updateFields (block.SetThisHash thisHash)).lookup "this_hash" = some thisHash := by
    rw [updateFields_lookup _ (by decide) (by decide) (by decide)]
    exact GoMap.lookup_set_self _ _ _
  exact ⟨hl, BlockUpdate_rendered_of_ne c store w _ (GoMap.ne_empty_of_lookup hl)⟩

/-! ## BlockCreate: what is handed to the insert builder -/

/-- C2 (defect in the code): the row value `BlockCreate` hands to the insert
builder is the payload string returned by `Block.Data`, for every block; it is
never a field mapping. -/
theorem BlockCreate_rows_is_payload (c : Collab) (store : Store) (w : World) (block : Block) :
    (store.BlockCreate c w block).1.rendered = w.rendered ++
      [Dataset.insert store.dbDriverName store.blockTableName true (GoAny.str block.Data)] ∧
    ∀ m : GoMap, GoAny.str block.Data ≠ GoAny.mapStringString m := by
  refine ⟨?_, fun m h => by cases h⟩
  have hd : (block.SetTimestamp c.now).Data = block.Data :=
    Block.Get_Set_ne block c.now (by decide)
  simp only [Store.BlockCreate, hd]
  split
  · rfl
  · split <;> simp [World.ran, World.render]

/-! ## The changed-field set after an update -/

/-- When `BlockUpdate` returns no error for a non-nil block, the block it
leaves has an empty changed-field map, on the early return (all changed fields
removed) as well as after an executed statement. -/
theorem BlockUpdate_clears_dirty (c : Collab) (store : Store) (w : World) (block : Block)
    (h : (store.BlockUpdate c w (some block)).2.2 = none) :
    ∃ b, (store.BlockUpdate c w (some block)).2.1 = some b ∧ b.DataChanged = ∅ := by
  revert h
  by_cases he : updateFields block = ∅
  · rw [BlockUpdate_of_empty c store w block he]
    intro _
    exact ⟨_, rfl, rfl⟩
  · have hlen : ¬ (updateFields block).len < 1 :=
      fun hl => he ((GoMap.len_lt_one_iff _).mp hl)
    simp only [updateFields] at hlen
    simp only [Store.BlockUpdate]
    rw [if_neg hlen]
    split
    · intro h; cases h
    · intro _
      exact ⟨_, rfl, rfl⟩

/-! ## Argument guards -/

/-- C6: the empty id and the nil block are refused with an error before
anything is rendered or executed: the world (table, rendered datasets,
executed statements, log) is returned as it was. -/
theorem guards_touch_nothing (c : Collab) (store : Store) (w : World) :
    store.BlockFindByID c w "" = (w, none, some "exam id is empty") ∧
    store.BlockDeleteByID c w "" = (w, some "block id is empty") ∧
    store.BlockDelete c w none = (w, some "block is nil") ∧
    store.BlockUpdate c w none = (w, none, some "order is nil") :=
  ⟨rfl, rfl, rfl, rfl⟩

/-! ## BlockUpdate without changes -/

/-- A block hydrated from any field mapping and not mutated makes
`BlockUpdate` return nil with the world as it was. -/
theorem BlockUpdate_hydrated (c : Collab) (store : Store) (w : World) (m : GoMap) :
    (store.BlockUpdate c w (some (NewBlockFromExistingData m))).1 = w ∧
    (store.BlockUpdate c w (some (NewBlockFromExistingData m))).2.2 = none := by
  rw [BlockUpdate_of_empty c store w _ (updateFields_hydrated m)]
  exact ⟨rfl, rfl⟩

/-- C10 (defect in the code, the one of C1): a hydrated block on which only
`SetThisHash` was called has an empty changed-field map once `id`, `this_hash`
and `data` are removed from it, yet `BlockUpdate` is no no-op on it: over the
table backend it renders and executes an update of `this_hash` filtered by the
block's id and returns the backend's error. -/
theorem BlockUpdate_this_hash_only (now : String) (store : Store) (w : World) (m : GoMap)
    (thisHash : String) :
    ((((NewBlockFromExistingData m).SetThisHash thisHash).DataChanged.delete "id").delete
      "this_hash").delete "data" = ∅ ∧
    (store.BlockUpdate (tableCollab now store) w
        (some ((NewBlockFromExistingData m).SetThisHash thisHash))).1.rendered =
      w.rendered ++ [Dataset.update store.dbDriverName store.blockTableName true
        (GoMap.ofList [("this_hash", thisHash)]) [⟨"id", m.get "id"⟩]] ∧
    (store.BlockUpdate (tableCollab now store) w
        (some ((NewBlockFromExistingData m).SetThisHash thisHash))).1.executed =
      w.executed ++ [Dataset.update store.dbDriverName store.blockTableName true
        (GoMap.ofList [("this_hash", thisHash)]) [⟨"id", m.get "id"⟩]] ∧
    (store.BlockUpdate (tableCollab now store) w
        (some ((NewBlockFromExistingData m).SetThisHash thisHash))).2.2 =
      some "no such column" := by
  have hid : ((NewBlockFromExistingData m).SetThisHash thisHash).ID = m.get "id" := by
    rw [← NewBlockFromExistingData_Get]
    exact Block.Get_Set_ne _ thisHash (by decide)
  have hf : updateFields ((NewBlockFromExistingData m).SetThisHash thisHash) =
      GoMap.ofList [("this_hash", thisHash)] := rfl
  have hne : updateFields ((NewBlockFromExistingData m).SetThisHash thisHash) ≠ ∅ := by
    rw [hf]
    exact GoMap.ne_empty_of_lookup (k := "this_hash") (v := thisHash) rfl
  have hlen : ¬ (updateFields ((NewBlockFromExistingData m).SetThisHash thisHash)).len < 1 :=
    fun hl => hne ((GoMap.len_lt_one_iff _).mp hl)
  refine ⟨rfl, ?_, ?_, ?_⟩
  · rw [BlockUpdate_rendered_of_ne _ _ _ _ hne, hf, hid]
  · simp only [updateFields] at hlen
    simp only [Store.BlockUpdate]
    rw [if_neg hlen]
    simp only [tableCollab, renderError, World.ran, Store.logSql_executed, World.render]
    exact congrArg (fun x => w.executed ++ [Dataset.update store.dbDriverName
      store.blockTableName true (GoMap.ofList [("this_hash", thisHash)]) [⟨"id", x⟩]]) hid
  · simp only [updateFields] at hlen
    simp only [Store.BlockUpdate]
    rw [if_neg hlen]
    rfl

/-! ## blockQuery: the clauses it adds -/

theorem EqualFold_samples :
    EqualFold "asc" sb.ASC = true ∧ EqualFold "ASC" sb.ASC = true ∧
    EqualFold "Asc" sb.ASC = true ∧ EqualFold "a\u017fc" sb.ASC = true ∧
    EqualFold "desc" sb.ASC = false ∧ EqualFold "ascending" sb.ASC = false := by
  decide

@[simp] theorem SelectDataset.Where_order (q : SelectDataset) (a b : String) :
    (q.Where a b).order = q.order := rfl

@[simp] theorem SelectDataset.Where_limit (q : SelectDataset) (a b : String) :
    (q.Where a b).limit = q.limit := rfl

@[simp] theorem SelectDataset.Where_offset (q : SelectDataset) (a b : String) :
    (q.Where a b).offset = q.offset := rfl

@[simp] theorem SelectDataset.Where_wheres (q : SelectDataset) (a b : String) :
    (q.Where a b).wheres = q.wheres ++ [⟨a, b⟩] := rfl

@[simp] theorem SelectDataset.Limit_order (q : SelectDataset) (n : Nat) :
    (q.Limit n).order = q.order := rfl

@[simp] theorem SelectDataset.Limit_limit (q : SelectDataset) (n : Nat) :
    (q.Limit n).limit = some n := rfl

@[simp] theorem SelectDataset.Limit_offset (q : SelectDataset) (n : Nat) :
    (q.Limit n).offset = q.offset := rfl

@[simp] theorem SelectDataset.Limit_wheres (q : SelectDataset) (n : Nat) :
    (q.Limit n).wheres = q.wheres := rfl

@[simp] theorem SelectDataset.Offset_order (q : SelectDataset) (n : Nat) :
    (q.Offset n).order = q.order := rfl

@[simp] theorem SelectDataset.Offset_limit (q : SelectDataset) (n : Nat) :
    (q.Offset n).limit = q.limit := rfl

@[simp] theorem SelectDataset.Offset_offset (q : SelectDataset) (n : Nat) :
    (q.Offset n).offset = some n := rfl

@[simp] theorem SelectDataset.Offset_wheres (q : SelectDataset) (n : Nat) :
    (q.Offset n).wheres = q.wheres := rfl

@[simp] theorem SelectDataset.Order_order (q : SelectDataset) (a : String) (d : Direction) :
    (q.Order a d).order = some (a, d) := rfl

@[simp] theorem SelectDataset.Order_limit (q : SelectDataset) (a : String) (d : Direction) :
    (q.Order a d).limit = q.limit := rfl

@[simp] theorem SelectDataset.Order_offset (q : SelectDataset) (a : String) (d : Direction) :
    (q.Order a d).offset = q.offset := rfl

@[simp] theorem SelectDataset.Order_wheres (q : SelectDataset) (a : String) (d : Direction) :
    (q.Order a d).wheres = q.wheres := rfl

@[simp] theorem SelectDataset.From_order (a b : String) : (SelectDataset.From a b).order = none :=
  rfl

@[simp] theorem SelectDataset.From_limit (a b : String) : (SelectDataset.From a b).limit = none :=
  rfl

@[simp] theorem SelectDataset.From_offset (a b : String) :
    (SelectDataset.From a b).offset = none := rfl

@[simp] theorem SelectDataset.From_wheres (a b : String) : (SelectDataset.From a b).wheres = [] :=
  rfl

theorem blockQuery_order_eq (store : Store) (o : BlockQueryOptions) :
    (store.blockQuery o).order =
      (if o.OrderBy ≠ "" then
        some (o.OrderBy,
          if EqualFold (if o.SortOrder ≠ "" then o.SortOrder else "desc") sb.ASC = true
          then Direction.asc else Direction.desc)
       else none) := by
  simp only [Store.blockQuery, apply_ite SelectDataset.order, SelectDataset.Where_order,
    SelectDataset.Limit_order, SelectDataset.Offset_order, SelectDataset.Order_order,
    SelectDataset.From_order, ite_self]
  split_ifs <;> rfl

theorem blockQuery_limit_eq (store : Store) (o : BlockQueryOptions) :
    (store.blockQuery o).limit =
      (if o.CountOnly = false ∧ o.Limit > 0 then some (uint o.Limit) else none) := by
  simp only [Store.blockQuery, apply_ite SelectDataset.limit, SelectDataset.Where_limit,
    SelectDataset.Limit_limit, SelectDataset.Offset_limit, SelectDataset.Order_limit,
    SelectDataset.From_limit, ite_self]
  cases o.CountOnly <;> simp

theorem blockQuery_offset_eq (store : Store) (o : BlockQueryOptions) :
    (store.blockQuery o).offset =
      (if o.CountOnly = false ∧ o.Offset > 0 then some (uint o.Offset) else none) := by
  simp only [Store.blockQuery, apply_ite SelectDataset.offset, SelectDataset.Where_offset,
    SelectDataset.Limit_offset, SelectDataset.Offset_offset, SelectDataset.Order_offset,
    SelectDataset.From_offset, ite_self]
  cases o.CountOnly <;> simp

theorem blockQuery_wheres_eq (store : Store) (o : BlockQueryOptions) :
    (store.blockQuery o).wheres =
      (if o.ID ≠ "" then [⟨"id", o.ID⟩] else []) ++
      (if o.WithDeleted = false then [⟨"deleted_at", sb.NULL_DATETIME⟩] else []) := by
  simp only [Store.blockQuery, apply_ite SelectDataset.wheres, SelectDataset.Where_wheres,
    SelectDataset.Limit_wheres, SelectDataset.Offset_wheres, SelectDataset.Order_wheres,
    SelectDataset.From_wheres, ite_self]
  cases o.WithDeleted <;> simp

theorem uint_of_nonneg {x : Int} (h0 : 0 ≤ x) (h1 : x < 2 ^ 63) : ((uint x : Nat) : Int) = x := by
  unfold uint
  have h2 : x % 2 ^ 64 = x := Int.emod_eq_of_lt h0 (by omega)
  rw [h2]
  exact Int.toNat_of_nonneg h0

theorem toLower_of_upper (c : Char) (h : 65 ≤ c.toNat ∧ c.toNat ≤ 90) :
    ∃ n, 65 ≤ n ∧ n ≤ 90 ∧ c = Char.ofNat n ∧ c.toLower = Char.ofNat (n + 32) := by
  refine ⟨c.toNat, h.1, h.2, (Char.ofNat_toNat c).symm, ?_⟩
  unfold Char.toLower
  simp only [ge_iff_le]
  rw [if_pos h]

theorem toLower_of_not_upper (c : Char) (h : ¬ (65 ≤ c.toNat ∧ c.toNat ≤ 90)) :
    c.toLower = c := by
  unfold Char.toLower
  simp only [ge_iff_le]
  rw [if_neg h]

theorem foldRune_eq_a (c : Char) : foldRune c = 'a' ↔ c = 'a' ∨ c = 'A' := by
  unfold foldRune
  by_cases h1 : c = '\u017f'
  · subst h1; decide
  by_cases h2 : c = '\u212a'
  · subst h2; decide
  rw [if_neg h1, if_neg h2]
  by_cases hu : 65 ≤ c.toNat ∧ c.toNat ≤ 90
  · obtain ⟨n, hn1, hn2, hc, hl⟩ := toLower_of_upper c hu
    rw [hl, hc]
    interval_cases n <;> decide
  · rw [toLower_of_not_upper c hu]
    constructor
    · exact fun h => Or.inl h
    · rintro (h | h)
      · exact h
      · subst h; exact absurd (by decide) hu

theorem foldRune_eq_c (c : Char) : foldRune c = 'c' ↔ c = 'c' ∨ c = 'C' := by
  unfold foldRune
  by_cases h1 : c = '\u017f'
  · subst h1; decide
  by_cases h2 : c = '\u212a'
  · subst h2; decide
  rw [if_neg h1, if_neg h2]
  by_cases hu : 65 ≤ c.toNat ∧ c.toNat ≤ 90
  · obtain ⟨n, hn1, hn2, hc, hl⟩ := toLower_of_upper c hu
    rw [hl, hc]
    interval_cases n <;> decide
  · rw [toLower_of_not_upper c hu]
    constructor
    · exact fun h => Or.inl h
    · rintro (h | h)
      · exact h
      · subst h; exact absurd (by decide) hu

theorem foldRune_eq_s (c : Char) :
    foldRune c = 's' ↔ c = 's' ∨ c = 'S' ∨ c = '\u017f' := by
  unfold foldRune
  by_cases h1 : c = '\u017f'
  · subst h1; decide
  by_cases h2 : c = '\u212a'
  · subst h2; decide
  rw [if_neg h1, if_neg h2]
  by_cases hu : 65 ≤ c.toNat ∧ c.toNat ≤ 90
  · obtain ⟨n, hn1, hn2, hc, hl⟩ := toLower_of_upper c hu
    rw [hl, hc]
    interval_cases n <;> decide
  · rw [toLower_of_not_upper c hu]
    constructor
    · exact fun h => Or.inl h
    · rintro (h | h | h)
      · exact h
      · subst h; exact absurd (by decide) hu
      · exact absurd h h1

/-- The strings `strings.EqualFold` identifies with "asc": the eight ways of
writing it in upper and lower case, and the four with the long s (U+017F),
which simple case folding puts in the orbit of `s`. -/
theorem EqualFold_asc_iff (s : String) :
    EqualFold s sb.ASC = true ↔
      s ∈ ["asc", "asC", "aSc", "aSC", "Asc", "AsC", "ASc", "ASC",
        "a\u017fc", "a\u017fC", "A\u017fc", "A\u017fC"] := by
  have hasc : sb.ASC.data.map foldRune = ['a', 's', 'c'] := by decide
  unfold EqualFold
  rw [hasc, beq_iff_eq]
  constructor
  · intro h
    obtain ⟨l⟩ := s
    rcases l with _ | ⟨x, _ | ⟨y, _ | ⟨z, _ | ⟨u, t⟩⟩⟩⟩ <;>
      simp only [List.map_nil, List.map_cons, List.cons.injEq, and_true, and_false,
        reduceCtorEq] at h
    obtain ⟨hx, hy, hz⟩ := h
    rw [foldRune_eq_a] at hx
    rw [foldRune_eq_s] at hy
    rw [foldRune_eq_c] at hz
    rcases hx with rfl | rfl <;> rcases hy with rfl | rfl | rfl <;>
      rcases hz with rfl | rfl <;> decide
  · intro h
    simp only [List.mem_cons, List.mem_singleton, List.not_mem_nil, or_false] at h
    rcases h with rfl | rfl | rfl | rfl | rfl | rfl | rfl | rfl | rfl | rfl | rfl | rfl <;>
      decide

/-- C7: `blockQuery` sets an order clause exactly when `OrderBy` is non-empty;
the clause is on the `OrderBy` column and is ascending exactly when
`SortOrder` is "asc" up to case, that is one of the listed spellings (upper or
lower case letters, the long s counting as a lower-case s as in
`strings.EqualFold`), and descending in every other case, the empty
`SortOrder` included. -/
theorem blockQuery_order (store : Store) (o : BlockQueryOptions) :
    (store.blockQuery o).order =
      (if o.OrderBy = "" then none
       else some (o.OrderBy,
         if o.SortOrder ∈ ["asc", "asC", "aSc", "aSC", "Asc", "AsC", "ASc", "ASC",
           "a\u017fc", "a\u017fC", "A\u017fc", "A\u017fC"]
         then Direction.asc else Direction.desc)) := by
  have hdesc : EqualFold "desc" sb.ASC = false := by decide
  rw [blockQuery_order_eq]
  by_cases hob : o.OrderBy = ""
  · simp [hob]
  · by_cases hso : o.SortOrder = ""
    · rw [hso]
      simp only [ne_eq, hob, not_false_eq_true, if_true, not_true_eq_false, if_false, hdesc]
      rfl
    · simp only [ne_eq, hob, hso, not_false_eq_true, if_true, if_false, EqualFold_asc_iff]

/-- C7, at concrete inputs: "ASC" and "asc" sort ascending, the empty
direction, "desc" and "ascending" sort descending, and without `OrderBy`
there is no order clause. -/
theorem blockQuery_order_witness :
    (sampleStore.blockQuery { OrderBy := "created_at", SortOrder := "ASC" }).order =
      some ("created_at", Direction.asc) ∧
    (sampleStore.blockQuery { OrderBy := "created_at", SortOrder := "asc" }).order =
      some ("created_at", Direction.asc) ∧
    (sampleStore.blockQuery { OrderBy := "created_at" }).order =
      some ("created_at", Direction.desc) ∧
    (sampleStore.blockQuery { OrderBy := "created_at", SortOrder := "desc" }).order =
      some ("created_at", Direction.desc) ∧
    (sampleStore.blockQuery { OrderBy := "created_at", SortOrder := "ascending" }).order =
      some ("created_at", Direction.desc) ∧
    (sampleStore.blockQuery { SortOrder := "asc" }).order = none :=
  ⟨(blockQuery_order sampleStore { OrderBy := "created_at", SortOrder := "ASC" }).trans
      (by decide),
   (blockQuery_order sampleStore { OrderBy := "created_at", SortOrder := "asc" }).trans
      (by decide),
   (blockQuery_order sampleStore { OrderBy := "created_at" }).trans (by decide),
   (blockQuery_order sampleStore { OrderBy := "created_at", SortOrder := "desc" }).trans
      (by decide),
   (blockQuery_order sampleStore { OrderBy := "created_at", SortOrder := "ascending" }).trans
      (by decide),
   (blockQuery_order sampleStore { SortOrder := "asc" }).trans (by decide)⟩

/-- C8: with the options' integers in the range of a Go `int`, the query has a
limit clause exactly when `CountOnly` is false and `Limit > 0`, an offset
clause exactly when `CountOnly` is false and `Offset > 0`, their values are
`Limit` and `Offset`, and with `CountOnly` true neither clause is present. -/
theorem blockQuery_pagination (store : Store) (o : BlockQueryOptions)
    (hl : o.Limit < 2 ^ 63) (ho : o.Offset < 2 ^ 63) :
    ((store.blockQuery o).limit.map (fun n : Nat => (n : Int)) =
      if o.CountOnly = false ∧ o.Limit > 0 then some o.Limit else none) ∧
    ((store.blockQuery o).offset.map (fun n : Nat => (n : Int)) =
      if o.CountOnly = false ∧ o.Offset > 0 then some o.Offset else none) ∧
    (store.blockQuery { o with CountOnly := true }).limit = none ∧
    (store.blockQuery { o with CountOnly := true }).offset = none := by
  refine ⟨?_, ?_, ?_, ?_⟩
  · rw [blockQuery_limit_eq]
    split_ifs with h
    · simp [uint_of_nonneg (le_of_lt h.2) hl]
    · rfl
  · rw [blockQuery_offset_eq]
    split_ifs with h
    · simp [uint_of_nonneg (le_of_lt h.2) ho]
    · rfl
  · rw [blockQuery_limit_eq]; simp
  · rw [blockQuery_offset_eq]; simp

/-- C8, at a concrete input: limit 2 and offset 1 without `CountOnly`. -/
theorem blockQuery_pagination_witness :
    (sampleStore.blockQuery { Limit := 2, Offset := 1 }).limit.map (fun n : Nat => (n : Int))
      = some 2 ∧
    (sampleStore.blockQuery { Limit := 2, Offset := 1 }).offset.map (fun n : Nat => (n : Int))
      = some 1 ∧
    (sampleStore.blockQuery { Limit := 2, Offset := 1, CountOnly := true }).limit = none ∧
    (sampleStore.blockQuery { Limit := 2, Offset := 1, CountOnly := true }).offset = none :=
  blockQuery_pagination sampleStore { Limit := 2, Offset := 1 } (by decide) (by decide)

/-! ## Hydration and listing -/

theorem foldl_append_eq_map (l : List GoMap) (acc : List Block) :
    l.foldl (fun list modelMap => list ++ [NewBlockFromExistingData modelMap]) acc =
      acc ++ l.map NewBlockFromExistingData := by
  induction l generalizing acc with
  | nil => simp
  | cons a t ih => simp [ih]

/-- With the table backend `BlockList` returns the hydrated rows the select
evaluates to, without error. -/
theorem BlockList_tableCollab (now : String) (store : Store) (w : World)
    (o : BlockQueryOptions) :
    (store.BlockList (tableCollab now store) w o).2 =
      ((runSelect ((store.blockQuery o).Select.Prepared true) w.table).map
        NewBlockFromExistingData, none) := by
  simp [Store.BlockList, tableCollab, renderError, foldl_append_eq_map, World.render]

theorem mem_runSelect {q : SelectDataset} {table : Table} {r : GoMap}
    (h : r ∈ runSelect q table) : r ∈ table ∧ rowMatches q.wheres r = true := by
  unfold runSelect at h
  have h1 : r ∈ (match q.offset with
      | none => (match q.order with
        | none => table.filter (rowMatches q.wheres)
        | some (col, Direction.asc) =>
          (table.filter (rowMatches q.wheres)).insertionSort (fun a b => a.get col ≤ b.get col)
        | some (col, Direction.desc) =>
          (table.filter (rowMatches q.wheres)).insertionSort (fun a b => b.get col ≤ a.get col))
      | some n => (match q.order with
        | none => table.filter (rowMatches q.wheres)
        | some (col, Direction.asc) =>
          (table.filter (rowMatches q.wheres)).insertionSort (fun a b => a.get col ≤ b.get col)
        | some (col, Direction.desc) =>
          (table.filter (rowMatches q.wheres)).insertionSort
            (fun a b => b.get col ≤ a.get col)).drop n) := by
    revert h
    cases q.limit with
    | none => exact id
    | some n => exact fun h => List.mem_of_mem_take h
  have h2 : r ∈ (match q.order with
      | none => table.filter (rowMatches q.wheres)
      | some (col, Direction.asc) =>
        (table.filter (rowMatches q.wheres)).insertionSort (fun a b => a.get col ≤ b.get col)
      | some (col, Direction.desc) =>
        (table.filter (rowMatches q.wheres)).insertionSort
          (fun a b => b.get col ≤ a.get col)) := by
    revert h1
    cases q.offset with
    | none => exact id
    | some n => exact fun h => List.mem_of_mem_drop h
  have h3 : r ∈ table.filter (rowMatches q.wheres) := by
    revert h2
    rcases q.order with _ | ⟨col, _ | _⟩
    · exact id
    · exact fun h => ((List.perm_insertionSort _ _).mem_iff).mp h
    · exact fun h => ((List.perm_insertionSort _ _).mem_iff).mp h
  exact List.mem_filter.mp h3

theorem rowMatches_blockQuery {store : Store} {o : BlockQueryOptions} {r : GoMap}
    (h : rowMatches ((store.blockQuery o).Select.Prepared true).wheres r = true) :
    (o.ID ≠ "" → r.lookup "id" = some o.ID) ∧
    (o.WithDeleted = false → r.lookup "deleted_at" = some sb.NULL_DATETIME) := by
  have hw : ((store.blockQuery o).Select.Prepared true).wheres = (store.blockQuery o).wheres := rfl
  rw [hw, blockQuery_wheres_eq] at h
  simp only [rowMatches, List.all_append, Bool.and_eq_true] at h
  constructor
  · intro hid
    have h1 := h.1
    rw [if_pos hid] at h1
    simpa [Cond.holds] using h1
  · intro hwd
    have h2 := h.2
    rw [if_pos hwd] at h2
    simpa [Cond.holds] using h2

theorem GoMap.lookup_of_get_ne_empty {m : GoMap} {k : String} (h : m.get k ≠ "") :
    m.lookup k = some (m.get k) := by
  unfold GoMap.get at h ⊢
  cases hl : m.lookup k with
  | none => simp [hl] at h
  | some v => simp

theorem GoMap.get_of_lookup {m : GoMap} {k v : String} (h : m.lookup k = some v) :
    m.get k = v := by
  simp [GoMap.get, h]

/-- With the table backend, looking up an id none of whose rows carries the
not-deleted marker gives an absent block and no error. -/
theorem BlockFindByID_tableCollab_absent (now : String) (store : Store) (w : World)
    (id : String) (hid : id ≠ "")
    (h : ∀ r ∈ w.table, r.lookup "id" = some id →
      r.lookup "deleted_at" ≠ some sb.NULL_DATETIME) :
    (store.BlockFindByID (tableCollab now store) w id).2 = (none, none) := by
  have hL := BlockList_tableCollab now store w { ID := id, Limit := 1 }
  have hnil : runSelect ((store.blockQuery { ID := id, Limit := 1 }).Select.Prepared true)
      w.table = [] := by
    apply List.eq_nil_iff_forall_not_mem.mpr
    intro r hr
    have hm := mem_runSelect hr
    have hq := rowMatches_blockQuery hm.2
    exact h r hm.1 (hq.1 hid) (hq.2 rfl)
  rw [hnil] at hL
  simp only [Store.BlockFindByID]
  rw [if_neg hid]
  rcases hr : store.BlockList (tableCollab now store) w { ID := id, Limit := 1 } with
    ⟨w', list, err⟩
  rw [hr] at hL
  simp only [List.map_nil, Prod.mk.injEq] at hL
  obtain ⟨h1, h2⟩ := hL
  subst h1 h2
  rfl

/-! ## Lookup by id -/

/-- C9: for a non-empty id `BlockFindByID` is `BlockList` with the options
`ID: id, Limit: 1`: the list's error with an absent block when the list fails,
an absent block and no error when the list is empty, the first block and no
error otherwise.  With the table backend, an id that no row carries gives an
absent block and no error. -/
theorem BlockFindByID_eq_BlockList (c : Collab) (store : Store) (w : World) (id : String)
    (now : String) (h : id ≠ "") :
    store.BlockFindByID c w id =
      (match store.BlockList c w { ID := id, Limit := 1 } with
       | (w', _, some err) => (w', none, some err)
       | (w', [], none) => (w', none, none)
       | (w', b :: _, none) => (w', some b, none)) ∧
    ((∀ r ∈ w.table, r.lookup "id" ≠ some id) →
      (store.BlockFindByID (tableCollab now store) w id).2 = (none, none)) := by
  constructor
  · simp only [Store.BlockFindByID]
    rw [if_neg h]
    rcases store.BlockList c w { ID := id, Limit := 1 } with ⟨w', list, err⟩
    cases list <;> cases err <;> simp
  · intro hno
    exact BlockFindByID_tableCollab_absent now store w id h
      (fun r hr hrid => absurd hrid (hno r hr))

/-- C9, at concrete inputs: a table with one live row `b1`; the id `b1` is
found and the id `zz` is absent without error. -/
theorem BlockFindByID_eq_BlockList_witness :
    (sampleStore.BlockFindByID (tableCollab "2024-01-01 00:00:00" sampleStore)
      (World.start [GoMap.ofList [("id", "b1"), ("deleted_at", "0002-01-01 00:00:00")]])
      "b1").2 =
      (some (NewBlockFromExistingData
        (GoMap.ofList [("id", "b1"), ("deleted_at", "0002-01-01 00:00:00")])), none) ∧
    (sampleStore.BlockFindByID (tableCollab "2024-01-01 00:00:00" sampleStore)
      (World.start [GoMap.ofList [("id", "b1"), ("deleted_at", "0002-01-01 00:00:00")]])
      "zz").2 = (none, none) :=
  ⟨by
    rw [(BlockFindByID_eq_BlockList (tableCollab "2024-01-01 00:00:00" sampleStore) sampleStore
      (World.start [GoMap.ofList [("id", "b1"), ("deleted_at", "0002-01-01 00:00:00")]])
      "b1" "2024-01-01 00:00:00" (by decide)).1]
    decide,
   (BlockFindByID_eq_BlockList (tableCollab "2024-01-01 00:00:00" sampleStore) sampleStore
      (World.start [GoMap.ofList [("id", "b1"), ("deleted_at", "0002-01-01 00:00:00")]])
      "zz" "2024-01-01 00:00:00" (by decide)).2 (by decide)⟩

/-! ## Soft-delete filter -/

/-- C4 as stated fails: a stored row whose `deleted_at` is the non-empty value
`sb.NULL_DATETIME` is returned by `BlockList` with `WithDeleted` false and is
found by `BlockFindByID`. -/
theorem BlockList_returns_null_datetime_row :
    (GoMap.ofList [("id", "b1"), ("deleted_at", "0002-01-01 00:00:00")]).get "deleted_at" ≠ "" ∧
    NewBlockFromExistingData
        (GoMap.ofList [("id", "b1"), ("deleted_at", "0002-01-01 00:00:00")]) ∈
      (sampleStore.BlockList (tableCollab "2024-01-01 00:00:00" sampleStore)
        (World.start [GoMap.ofList [("id", "b1"), ("deleted_at", "0002-01-01 00:00:00")]])
        { WithDeleted := false }).2.1 ∧
    (sampleStore.BlockFindByID (tableCollab "2024-01-01 00:00:00" sampleStore)
        (World.start [GoMap.ofList [("id", "b1"), ("deleted_at", "0002-01-01 00:00:00")]])
        "b1").2.1 =
      some (NewBlockFromExistingData
        (GoMap.ofList [("id", "b1"), ("deleted_at", "0002-01-01 00:00:00")])) := by
  decide

/-- C4, amended: over the table backend, a row whose `deleted_at` value is
not `sb.NULL_DATETIME` is not in the result of `BlockList` when `WithDeleted`
is false, and `BlockFindByID` on its id returns an absent block when no other
row carries that id; with `WithDeleted` true the query built by `blockQuery`
has no condition on `deleted_at`. -/
theorem BlockList_excludes_deleted (now : String) (store : Store) (w : World)
    (o : BlockQueryOptions) (row : GoMap)
    (hval : row.get "deleted_at" ≠ sb.NULL_DATETIME) :
    (o.WithDeleted = false →
      NewBlockFromExistingData row ∉ (store.BlockList (tableCollab now store) w o).2.1) ∧
    ((∀ r ∈ w.table, r.lookup "id" = row.lookup "id" → r = row) →
      (store.BlockFindByID (tableCollab now store) w (row.get "id")).2.1 = none) ∧
    (o.WithDeleted = true →
      ∀ cnd ∈ (store.blockQuery o).wheres, cnd.column ≠ "deleted_at") := by
  refine ⟨?_, ?_, ?_⟩
  · intro hwd hmem
    rw [BlockList_tableCollab] at hmem
    obtain ⟨r, hr, hrow⟩ := List.mem_map.mp hmem
    have hq := (rowMatches_blockQuery (mem_runSelect hr).2).2 hwd
    have h1 : (NewBlockFromExistingData r).Get "deleted_at" = sb.NULL_DATETIME := by
      rw [NewBlockFromExistingData_Get]
      exact GoMap.get_of_lookup hq
    rw [hrow, NewBlockFromExistingData_Get] at h1
    exact hval h1
  · intro huniq
    by_cases hid : row.get "id" = ""
    · rw [hid]
      rfl
    · have hrid := GoMap.lookup_of_get_ne_empty hid
      have habs := BlockFindByID_tableCollab_absent now store w (row.get "id") hid
        (fun r hr hrl hdel => by
          have hrr : r = row := huniq r hr (by rw [hrl, hrid])
          subst hrr
          exact hval (GoMap.get_of_lookup hdel))
      rw [habs]
  · intro hwd cnd hc
    rw [blockQuery_wheres_eq] at hc
    simp only [hwd, Bool.true_eq_false, if_false, List.append_nil] at hc
    split_ifs at hc with hid
    · simp only [List.mem_singleton] at hc
      subst hc
      show "id" ≠ "deleted_at"
      decide
    · simp at hc

/-- C4 amended, at a concrete input: one stored row deleted on 2024-05-05. -/
theorem BlockList_excludes_deleted_witness :
    NewBlockFromExistingData
        (GoMap.ofList [("id", "b1"), ("deleted_at", "2024-05-05 10:00:00")]) ∉
      (sampleStore.BlockList (tableCollab "2024-01-01 00:00:00" sampleStore)
        (World.start [GoMap.ofList [("id", "b1"), ("deleted_at", "2024-05-05 10:00:00")]])
        { WithDeleted := false }).2.1 ∧
    (sampleStore.BlockFindByID (tableCollab "2024-01-01 00:00:00" sampleStore)
        (World.start [GoMap.ofList [("id", "b1"), ("deleted_at", "2024-05-05 10:00:00")]])
        "b1").2.1 = none :=
  ⟨(BlockList_excludes_deleted "2024-01-01 00:00:00" sampleStore
      (World.start [GoMap.ofList [("id", "b1"), ("deleted_at", "2024-05-05 10:00:00")]])
      { WithDeleted := false }
      (GoMap.ofList [("id", "b1"), ("deleted_at", "2024-05-05 10:00:00")]) (by decide)).1 rfl,
   (BlockList_excludes_deleted "2024-01-01 00:00:00" sampleStore
      (World.start [GoMap.ofList [("id", "b1"), ("deleted_at", "2024-05-05 10:00:00")]])
      { WithDeleted := false }
      (GoMap.ofList [("id", "b1"), ("deleted_at", "2024-05-05 10:00:00")])
      (by decide)).2.1 (by decide)⟩

/-! ## Create followed by lookup -/

/-- With the table backend the insert dataset of `BlockCreate` is refused by
the renderer: the call returns that error and executes nothing. -/
theorem BlockCreate_tableCollab (now : String) (store : Store) (w : World) (block : Block) :
    store.BlockCreate (tableCollab now store) w block =
      (w.render (Dataset.insert store.dbDriverName store.blockTableName true
          (GoAny.str (block.SetTimestamp now).Data)),
        block.SetTimestamp now,
        some "goqu: unsupported insert must be map, goqu.Record, or struct type got: string") :=
  rfl

/-- The field names of a block are not the columns of the table: the table
backend refuses an insert of a new block's complete field mapping. -/
theorem runExecute_refuses_block_fields (uid now : String) (store : Store) (table : Table) :
    runExecute (store.sqlCreateTable.columns.map (fun c => c.Name))
      (Dataset.insert store.dbDriverName store.blockTableName true
        (GoAny.mapStringString (NewBlock uid now).toDataObject.Data)) table =
      (table, some "no such column") := by
  have hk : (NewBlock uid now).toDataObject.Data.keys =
      ["data", "this_hash", "previous_hash", "timestamp", "id"] := by
    simp [NewBlock, Block.SetID, Block.SetTimestamp, Block.Set, DataObject.SetID, DataObject.Set,
      DataObject.zero, DataObject.Data, GoMap.set, AList.keys_insert]
  simp only [runExecute, hk]
  rfl

/-- For every payload and parent hash, `BlockCreate` on a block built by
`NewBlock`, `SetData`, `SetPreviousHash` returns an error over the table
backend and leaves the table and the executed statements as they were;
started on an empty table, `BlockFindByID` with the block's id afterwards
returns an absent block. -/
theorem BlockCreate_stores_nothing (uid now now' P H : String) (store : Store) (w : World) :
    (store.BlockCreate (tableCollab now' store) w
        (((NewBlock uid now).SetData P).SetPreviousHash H)).2.2 =
      some "goqu: unsupported insert must be map, goqu.Record, or struct type got: string" ∧
    (store.BlockCreate (tableCollab now' store) w
        (((NewBlock uid now).SetData P).SetPreviousHash H)).1.table = w.table ∧
    (store.BlockCreate (tableCollab now' store) w
        (((NewBlock uid now).SetData P).SetPreviousHash H)).1.executed = w.executed ∧
    (store.BlockFindByID (tableCollab now' store)
        (store.BlockCreate (tableCollab now' store) (World.start [])
          (((NewBlock uid now).SetData P).SetPreviousHash H)).1
        (((NewBlock uid now).SetData P).SetPreviousHash H).ID).2.1 = none := by
  refine ⟨rfl, rfl, rfl, ?_⟩
  rw [BlockCreate_tableCollab]
  by_cases hid : (((NewBlock uid now).SetData P).SetPreviousHash H).ID = ""
  · rw [hid]
    rfl
  · rw [BlockFindByID_tableCollab_absent now' store _ _ hid (fun r hr => by cases hr)]

end Blockchainstore
